import Mathlib

/-!
# repl-toolkit: verification of the attachment, registry, headless and
# cancellation subsystems

This file gives a shallow embedding, in Lean 4, of the parts of the
`repl_toolkit` Python package that the specification's claims are about:

* the attachment subsystem (`repl_toolkit/images.py`):
  `detect_media_type`, `parse_image_references`, `iter_content_parts`;
* the image buffer of the interactive session (`repl_toolkit/async_repl.py`):
  `add_image`, `clear_images`;
* the action registry (`repl_toolkit/actions/registry.py`):
  `register_action`, `execute_action`, `handle_command`;
* headless mode (`repl_toolkit/headless.py`): `run_headless_mode`;
* the cancellation coordinator (`repl_toolkit/async_repl.py`):
  `_process_input`, `_cancellation_context`, `_handle_cancellation`,
  `trigger_cancel` and the two cancel key handlers.

Python strings are modelled as `List Char`, byte strings as `List Nat`,
dictionaries as association lists in insertion order, and raised exceptions
as explicit `Except`/`Option` values.  Each definition carries a comment
naming the Python function it translates.
-/

/-- Python strings are modelled as lists of characters. -/
abbrev Str := List Char

/-- `images.ImageData`: raw bytes, media type, capture timestamp.
The Python timestamp is a float from `time.time()`; only its value as an
opaque token matters to the claims, so it is modelled as a `Nat`. -/
structure ImageData where
  data : List Nat
  mediaType : String
  timestamp : Nat
deriving DecidableEq, Repr

/-! ## `images.detect_media_type` -/

/-- `b"\x89PNG\r\n\x1a\n"`. -/
def pngSig : List Nat := [0x89, 0x50, 0x4E, 0x47, 0x0D, 0x0A, 0x1A, 0x0A]

/-- `b"\xff\xd8\xff"`. -/
def jpegSig : List Nat := [0xFF, 0xD8, 0xFF]

/-- `b"GIF87a"`. -/
def gif87Sig : List Nat := [0x47, 0x49, 0x46, 0x38, 0x37, 0x61]

/-- `b"GIF89a"`. -/
def gif89Sig : List Nat := [0x47, 0x49, 0x46, 0x38, 0x39, 0x61]

/-- `b"RIFF"`. -/
def riffSig : List Nat := [0x52, 0x49, 0x46, 0x46]

/-- `b"WEBP"`. -/
def webpSig : List Nat := [0x57, 0x45, 0x42, 0x50]

/-- `b"BM"`. -/
def bmpSig : List Nat := [0x42, 0x4D]

/-- Python's `needle in haystack` on byte strings: substring containment. -/
def containsSeq (needle : List Nat) : List Nat → Bool
  | [] => needle.isEmpty
  | c :: cs => needle.isPrefixOf (c :: cs) || containsSeq needle cs

/-- `images.detect_media_type(data)`: inspects leading bytes against the
fixed signature table.  `bytes.startswith` is `List.isPrefixOf`; the check
`b"WEBP" in data[8:12]` is containment in the 4-byte slice. -/
def detect_media_type (data : List Nat) : Option String :=
  if data.isEmpty || data.length < 12 then
    none
  else if pngSig.isPrefixOf data then
    some "image/png"
  else if jpegSig.isPrefixOf data then
    some "image/jpeg"
  else if gif87Sig.isPrefixOf data || gif89Sig.isPrefixOf data then
    some "image/gif"
  else if riffSig.isPrefixOf data && containsSeq webpSig ((data.drop 8).take 4) then
    some "image/webp"
  else if bmpSig.isPrefixOf data then
    some "image/bmp"
  else
    none

example : detect_media_type (pngSig ++ [0, 0, 0, 0]) = some "image/png" := by decide
example : detect_media_type (jpegSig ++ [1, 2, 3, 4, 5, 6, 7, 8, 9]) = some "image/jpeg" := by decide
example : detect_media_type (riffSig ++ [0, 0, 0, 0] ++ webpSig) = some "image/webp" := by decide
example : detect_media_type (bmpSig ++ [0, 0, 0, 0, 0, 0, 0, 0, 0, 0]) = some "image/bmp" := by decide
example : detect_media_type [1, 2, 3, 4, 5, 6, 7, 8, 9, 10] = none := by decide
example : detect_media_type (List.replicate 20 0) = none := by decide

/-- If two nonempty lists are both prefixes of the same list, their heads
agree.  Used to show the signature table's branches do not shadow each
other (the five signatures have pairwise distinct first bytes). -/
theorem prefix_head_eq {a b : Nat} {s t d : List Nat}
    (h1 : (a :: s) <+: d) (h2 : (b :: t) <+: d) : a = b := by
  obtain ⟨u, hu⟩ := h1
  obtain ⟨v, hv⟩ := h2
  cases d with
  | nil => simp at hu
  | cons x xs =>
    simp only [List.cons_append, List.cons.injEq] at hu hv
    rw [hu.1, hv.1]

/-- If `a :: s` is a prefix of `d` (as `isPrefixOf`) and `b ≠ a`, then
`b :: t` is not a prefix of `d`. -/
theorem isPrefixOf_false_of_ne_head {a b : Nat} (hne : a ≠ b) {s t d : List Nat}
    (h : (a :: s).isPrefixOf d = true) : (b :: t).isPrefixOf d = false := by
  rcases Bool.eq_false_or_eq_true ((b :: t).isPrefixOf d) with hb | hb
  · exact absurd
      (prefix_head_eq (List.isPrefixOf_iff_prefix.mp h) (List.isPrefixOf_iff_prefix.mp hb))
      hne
  · exact hb

/-- C9: `detect_media_type` returns the correct media type when the input
starts with one of the five supported signatures (PNG, JPEG, GIF87a/GIF89a,
WEBP-in-RIFF, BMP) and has at least 12 bytes, and returns `none`
("unrecognized") for every input of fewer than 12 bytes and for every input
matching none of the signatures. -/
theorem detect_media_type_spec (data : List Nat) :
    (data.length < 12 → detect_media_type data = none)
  ∧ (12 ≤ data.length →
      (pngSig.isPrefixOf data = true → detect_media_type data = some "image/png")
    ∧ (jpegSig.isPrefixOf data = true → detect_media_type data = some "image/jpeg")
    ∧ (gif87Sig.isPrefixOf data = true ∨ gif89Sig.isPrefixOf data = true →
        detect_media_type data = some "image/gif")
    ∧ (riffSig.isPrefixOf data = true →
        containsSeq webpSig ((data.drop 8).take 4) = true →
        detect_media_type data = some "image/webp")
    ∧ (bmpSig.isPrefixOf data = true → detect_media_type data = some "image/bmp")
    ∧ (pngSig.isPrefixOf data = false → jpegSig.isPrefixOf data = false →
        gif87Sig.isPrefixOf data = false → gif89Sig.isPrefixOf data = false →
        (riffSig.isPrefixOf data && containsSeq webpSig ((data.drop 8).take 4)) = false →
        bmpSig.isPrefixOf data = false →
        detect_media_type data = none)) := by
  constructor
  · intro h
    simp [detect_media_type, h]
  · intro h12
    have hne : data.isEmpty = false := by
      cases data with
      | nil => simp at h12
      | cons a l => rfl
    have hlt : ¬ data.length < 12 := Nat.not_lt.mpr h12
    refine ⟨?_, ?_, ?_, ?_, ?_, ?_⟩
    · intro hp
      simp [detect_media_type, hne, hlt, hp]
    · intro hj
      have hp : pngSig.isPrefixOf data = false :=
        isPrefixOf_false_of_ne_head (show (0xFF : Nat) ≠ 0x89 by decide) hj
      simp [detect_media_type, hne, hlt, hp, hj]
    · intro hg
      rcases hg with hg | hg
      · have hp : pngSig.isPrefixOf data = false :=
          isPrefixOf_false_of_ne_head (show (0x47 : Nat) ≠ 0x89 by decide) hg
        have hj : jpegSig.isPrefixOf data = false :=
          isPrefixOf_false_of_ne_head (show (0x47 : Nat) ≠ 0xFF by decide) hg
        simp [detect_media_type, hne, hlt, hp, hj, hg]
      · have hp : pngSig.isPrefixOf data = false :=
          isPrefixOf_false_of_ne_head (show (0x47 : Nat) ≠ 0x89 by decide) hg
        have hj : jpegSig.isPrefixOf data = false :=
          isPrefixOf_false_of_ne_head (show (0x47 : Nat) ≠ 0xFF by decide) hg
        simp [detect_media_type, hne, hlt, hp, hj, hg]
    · intro hr hw
      have hp : pngSig.isPrefixOf data = false :=
        isPrefixOf_false_of_ne_head (show (0x52 : Nat) ≠ 0x89 by decide) hr
      have hj : jpegSig.isPrefixOf data = false :=
        isPrefixOf_false_of_ne_head (show (0x52 : Nat) ≠ 0xFF by decide) hr
      have h87 : gif87Sig.isPrefixOf data = false :=
        isPrefixOf_false_of_ne_head (show (0x52 : Nat) ≠ 0x47 by decide) hr
      have h89 : gif89Sig.isPrefixOf data = false :=
        isPrefixOf_false_of_ne_head (show (0x52 : Nat) ≠ 0x47 by decide) hr
      simp [detect_media_type, hne, hlt, hp, hj, h87, h89, hr, hw]
    · intro hb
      have hp : pngSig.isPrefixOf data = false :=
        isPrefixOf_false_of_ne_head (show (0x42 : Nat) ≠ 0x89 by decide) hb
      have hj : jpegSig.isPrefixOf data = false :=
        isPrefixOf_false_of_ne_head (show (0x42 : Nat) ≠ 0xFF by decide) hb
      have h87 : gif87Sig.isPrefixOf data = false :=
        isPrefixOf_false_of_ne_head (show (0x42 : Nat) ≠ 0x47 by decide) hb
      have h89 : gif89Sig.isPrefixOf data = false :=
        isPrefixOf_false_of_ne_head (show (0x42 : Nat) ≠ 0x47 by decide) hb
      have hr : riffSig.isPrefixOf data = false :=
        isPrefixOf_false_of_ne_head (show (0x42 : Nat) ≠ 0x52 by decide) hb
      simp [detect_media_type, hne, hlt, hp, hj, h87, h89, hr, hb]
    · intro hp hj h87 h89 hw hb
      simp only [detect_media_type, hne, hlt, hp, hj, h87, h89, hb, hw]
      simp [hlt, hne]

/-- Witness for C9 at a concrete 12-byte PNG input. -/
theorem detect_media_type_spec_witness :
    detect_media_type (pngSig ++ [0, 0, 0, 0]) = some "image/png" :=
  ((detect_media_type_spec (pngSig ++ [0, 0, 0, 0])).2 (by decide)).1 (by decide)

/-! ## `images.parse_image_references` and `images.iter_content_parts`

The placeholder grammar is the regex `\{\{image:(\w+)\}\}`, scanned
left-to-right with non-overlapping matches (`re.finditer`).  Because a word
character is never `}`, the greedy `\w+` never backtracks successfully, so
the regex scan is equivalent to: at each position, match the literal
opener, then a maximal nonempty run of word characters, then the literal
closer; on failure advance one character.  `\w` is modelled over its ASCII
range (letters, digits, underscore); the ids the toolkit itself generates
are all of this shape. -/

/-- A word character for the placeholder id (`\w`, ASCII range). -/
def isWordChar (c : Char) : Bool := c.isAlphanum || c == '_'

/-- The literal opener of a placeholder token. -/
def tokOpen : Str := ['\x7b', '\x7b', 'i', 'm', 'a', 'g', 'e', ':']

/-- The literal closer of a placeholder token. -/
def tokClose : Str := ['\x7d', '\x7d']

/-- Strip an expected literal prefix, returning the remainder on success. -/
def dropLit : Str → Str → Option Str
  | [], cs => some cs
  | _ :: _, [] => none
  | p :: ps, c :: cs => if c = p then dropLit ps cs else none

/-- Try to match one placeholder token at the current position: the opener,
a maximal nonempty run of word characters, then the closer.  Returns the id
and the remainder after the token. -/
def tryTok (cs : Str) : Option (Str × Str) :=
  match dropLit tokOpen cs with
  | none => none
  | some cs1 =>
    let w := cs1.takeWhile isWordChar
    if w.isEmpty then none
    else
      match dropLit tokClose (cs1.dropWhile isWordChar) with
      | none => none
      | some r2 => some (w, r2)

/-- Find the leftmost placeholder token: returns the text before it, its
id, and the remainder after it (the scan of `re.finditer`). -/
def findTok : Str → Option (Str × Str × Str)
  | [] => none
  | c :: cs =>
    match tryTok (c :: cs) with
    | some (id, rest) => some ([], id, rest)
    | none =>
      match findTok cs with
      | some (pre, id, rest) => some (c :: pre, id, rest)
      | none => none

theorem dropLit_eq_some {p cs r : Str} (h : dropLit p cs = some r) : cs = p ++ r := by
  induction p generalizing cs with
  | nil =>
    simp only [dropLit, Option.some.injEq] at h
    simp [h]
  | cons a ps ih =>
    cases cs with
    | nil => simp [dropLit] at h
    | cons c cs' =>
      simp only [dropLit] at h
      by_cases hca : c = a
      · rw [if_pos hca] at h
        rw [List.cons_append, ← hca, ih h]
      · rw [if_neg hca] at h
        cases h

theorem tryTok_eq_some {cs id rest : Str} (h : tryTok cs = some (id, rest)) :
    cs = tokOpen ++ id ++ tokClose ++ rest ∧ id ≠ [] := by
  unfold tryTok at h
  cases hd : dropLit tokOpen cs with
  | none => rw [hd] at h; cases h
  | some cs1 =>
    rw [hd] at h
    simp only at h
    by_cases hw : (cs1.takeWhile isWordChar).isEmpty
    · rw [if_pos hw] at h; cases h
    · rw [if_neg hw] at h
      cases hd2 : dropLit tokClose (cs1.dropWhile isWordChar) with
      | none => rw [hd2] at h; cases h
      | some r2 =>
        rw [hd2] at h
        simp only [Option.some.injEq, Prod.mk.injEq] at h
        obtain ⟨hid, hrest⟩ := h
        subst hid hrest
        have hsplit : cs1.takeWhile isWordChar ++ cs1.dropWhile isWordChar = cs1 :=
          List.takeWhile_append_dropWhile isWordChar cs1
        have hcs1 : cs1 = cs1.takeWhile isWordChar ++ (tokClose ++ r2) := by
          conv_lhs => rw [← hsplit]
          rw [dropLit_eq_some hd2]
        constructor
        · rw [dropLit_eq_some hd]
          conv_lhs => rw [hcs1]
          simp [List.append_assoc]
        · intro hnil
          rw [hnil] at hw
          simp at hw

theorem findTok_eq_some {cs pre id rest : Str}
    (h : findTok cs = some (pre, id, rest)) :
    cs = pre ++ tokOpen ++ id ++ tokClose ++ rest ∧ id ≠ [] := by
  induction cs generalizing pre with
  | nil => cases h
  | cons c cs' ih =>
    simp only [findTok] at h
    cases ht : tryTok (c :: cs') with
    | some p =>
      obtain ⟨pid, prest⟩ := p
      rw [ht] at h
      simp only [Option.some.injEq, Prod.mk.injEq] at h
      obtain ⟨hpre, hid, hrest⟩ := h
      subst hid hrest
      obtain ⟨hdec, hne⟩ := tryTok_eq_some ht
      subst hpre
      exact ⟨by simpa using hdec, hne⟩
    | none =>
      rw [ht] at h
      cases hf : findTok cs' with
      | none => rw [hf] at h; cases h
      | some q =>
        obtain ⟨b, id', rest'⟩ := q
        rw [hf] at h
        simp only [Option.some.injEq, Prod.mk.injEq] at h
        obtain ⟨hpre, hid, hrest⟩ := h
        obtain ⟨hdec, hne⟩ := ih (show findTok cs' = some (b, id, rest) by rw [hf, hid, hrest])
        subst hpre
        refine ⟨?_, hne⟩
        simp only [List.cons_append, hdec]

theorem findTok_rest_lt {cs pre id rest : Str}
    (h : findTok cs = some (pre, id, rest)) : rest.length < cs.length := by
  obtain ⟨hdec, hne⟩ := findTok_eq_some h
  have hpos : 0 < id.length := List.length_pos.mpr hne
  rw [hdec]
  simp only [List.length_append, tokOpen, tokClose, List.length_cons, List.length_nil]
  omega

/-- The loop of `images.parse_image_references`, with explicit fuel (the
fuel is strictly more than the text length, and each found token consumes
at least one character, so the fuel never runs out).  Text before each
token is emitted only when nonempty (`if match.start() > last_end`), each
token becomes an `("", id)` part, and the trailing text is emitted only
when nonempty (`if last_end < len(text)`). -/
def parsePartsF : Nat → Str → List (Str × Option Str)
  | 0, _ => []
  | fuel + 1, cs =>
    match findTok cs with
    | none => if cs.isEmpty then [] else [(cs, none)]
    | some (pre, id, rest) =>
      (if pre.isEmpty then [] else [(pre, none)]) ++ ([], some id) :: parsePartsF fuel rest

/-- `images.parse_image_references(text).parts`. -/
def parseParts (cs : Str) : List (Str × Option Str) := parsePartsF (cs.length + 1) cs

/-- The ids referenced by the text, in document order (with multiplicity). -/
def partIds (text : Str) : List Str := (parseParts text).filterMap Prod.snd

/-- The per-part step of `images.iter_content_parts`: Python tests
`if image_id:` (truthiness), so a `None` or empty id yields the text
branch, otherwise `("", images.get(image_id))`. -/
def iterFun (images : List (Str × ImageData)) (p : Str × Option Str) : Str × Option ImageData :=
  match p.2 with
  | some id => if id.isEmpty then (p.1, none) else ([], List.lookup id images)
  | none => (p.1, none)

/-- `images.iter_content_parts(text, images)`: parse, then pair every part
with its resolved attachment-or-absence. -/
def iterParts (text : Str) (images : List (Str × ImageData)) : List (Str × Option ImageData) :=
  (parseParts text).map (iterFun images)

/-- `stripTokensF fuel cs` is `cs` with every placeholder token removed
(the comparator the specification describes: "the input text with every
placeholder token stripped"), with the same fuel discipline. -/
def stripTokensF : Nat → Str → Str
  | 0, cs => cs
  | fuel + 1, cs =>
    match findTok cs with
    | none => cs
    | some (pre, _, rest) => pre ++ stripTokensF fuel rest

/-- The input text with every placeholder token removed. -/
def stripTokens (cs : Str) : Str := stripTokensF (cs.length + 1) cs

example :
    parseParts ("Look at \x7b\x7bimage:img_001\x7d\x7d and \x7b\x7bimage:img_002\x7d\x7d").toList
      = [("Look at ".toList, none), ([], some "img_001".toList),
         (" and ".toList, none), ([], some "img_002".toList)] := by decide

example : parseParts [] = [] := by decide

example : stripTokens ("a \x7b\x7bimage:x\x7d\x7d b").toList = "a  b".toList := by decide

theorem parsePartsF_filterMap_snd (fuel : Nat) :
    ∀ (cs : Str) (images : List (Str × ImageData)), cs.length < fuel →
      ((parsePartsF fuel cs).map (iterFun images)).filterMap Prod.snd
        = ((parsePartsF fuel cs).filterMap Prod.snd).filterMap
            (fun id => List.lookup id images) := by
  induction fuel with
  | zero => intro cs images h; cases h
  | succ fuel ih =>
    intro cs images h
    simp only [parsePartsF]
    cases hft : findTok cs with
    | none =>
      by_cases hcs : cs.isEmpty
      · simp [hcs]
      · simp [hcs, iterFun]
    | some t =>
      obtain ⟨pre, id, rest⟩ := t
      obtain ⟨_, hne⟩ := findTok_eq_some hft
      have hrest : rest.length < fuel :=
        Nat.lt_of_lt_of_le (findTok_rest_lt hft) (Nat.lt_succ_iff.mp h)
      have hid : id.isEmpty = false := by
        cases id with
        | nil => exact absurd rfl hne
        | cons a l => rfl
      by_cases hpre : pre.isEmpty
      · simp only [hpre, if_true, List.nil_append, List.map_cons, List.filterMap_cons,
          iterFun, hid, Bool.false_eq_true, if_false]
        cases hl : List.lookup id images <;>
          simp [hl, ih rest images hrest]
      · simp only [hpre, if_false, List.cons_append, List.nil_append, List.map_cons,
          List.map_append, List.filterMap_cons, iterFun, hid, Bool.false_eq_true]
        cases hl : List.lookup id images <;>
          simp [hl, ih rest images hrest, iterFun]

theorem parsePartsF_join_fst (fuel : Nat) :
    ∀ (cs : Str) (images : List (Str × ImageData)), cs.length < fuel →
      (((parsePartsF fuel cs).map (iterFun images)).map Prod.fst).flatten
        = stripTokensF fuel cs := by
  induction fuel with
  | zero => intro cs images h; cases h
  | succ fuel ih =>
    intro cs images h
    simp only [parsePartsF, stripTokensF]
    cases hft : findTok cs with
    | none =>
      by_cases hcs : cs.isEmpty
      · simp [hcs, List.isEmpty_iff.mp hcs]
      · simp [hcs, iterFun]
    | some t =>
      obtain ⟨pre, id, rest⟩ := t
      obtain ⟨_, hne⟩ := findTok_eq_some hft
      have hrest : rest.length < fuel :=
        Nat.lt_of_lt_of_le (findTok_rest_lt hft) (Nat.lt_succ_iff.mp h)
      have hid : id.isEmpty = false := by
        cases id with
        | nil => exact absurd rfl hne
        | cons a l => rfl
      have hrec := ih rest images hrest
      simp only [List.map_map] at hrec
      by_cases hpre : pre.isEmpty
      · rw [List.isEmpty_iff.mp hpre]
        simp [iterFun, hid, hrec]
      · simp [hpre, iterFun, hid, hrec]

theorem filterMap_length_of_forall_isSome {α β : Type} (f : α → Option β) :
    ∀ (l : List α), (∀ x ∈ l, (f x).isSome = true) → (l.filterMap f).length = l.length := by
  intro l
  induction l with
  | nil => intro _; rfl
  | cons a l ih =>
    intro h
    have ha := h a (by simp)
    cases hfa : f a with
    | none => rw [hfa] at ha; cases ha
    | some b =>
      simp only [List.filterMap_cons, hfa, List.length_cons]
      rw [ih fun x hx => h x (by simp [hx])]

/-- C3: for text containing `N` placeholder tokens whose ids are present in
the buffer, `iter_content_parts` yields exactly `N` non-text parts, in
document order, whose attachment equals the corresponding buffer entry;
and concatenating all yielded text parts reproduces the input text with
every placeholder token removed. -/
theorem iter_content_parts_spec (text : Str) (images : List (Str × ImageData))
    (h : ∀ id ∈ partIds text, (List.lookup id images).isSome = true) :
    ((iterParts text images).filterMap Prod.snd
        = (partIds text).filterMap fun id => List.lookup id images)
  ∧ ((iterParts text images).filterMap Prod.snd).length = (partIds text).length
  ∧ ((iterParts text images).map Prod.fst).flatten = stripTokens text := by
  have h1 := parsePartsF_filterMap_snd (text.length + 1) text images (Nat.lt_succ_self _)
  have h3 := parsePartsF_join_fst (text.length + 1) text images (Nat.lt_succ_self _)
  refine ⟨h1, ?_, h3⟩
  show (((parsePartsF (text.length + 1) text).map (iterFun images)).filterMap Prod.snd).length
      = (partIds text).length
  rw [h1]
  exact filterMap_length_of_forall_isSome (fun id => List.lookup id images) (partIds text) h

/-- Witness for C3 at a concrete two-token text with both ids present. -/
theorem iter_content_parts_spec_witness :
    (iterParts ("a \x7b\x7bimage:x\x7d\x7d\x7b\x7bimage:y\x7d\x7d b").toList
        [(['x'], ⟨[1], "image/png", 0⟩), (['y'], ⟨[2], "image/gif", 1⟩)]).filterMap Prod.snd
      = [⟨[1], "image/png", 0⟩, ⟨[2], "image/gif", 1⟩] := by
  have hspec := iter_content_parts_spec ("a \x7b\x7bimage:x\x7d\x7d\x7b\x7bimage:y\x7d\x7d b").toList
    [(['x'], ⟨[1], "image/png", 0⟩), (['y'], ⟨[2], "image/gif", 1⟩)] (by decide)
  rw [hspec.1]
  decide

/-! ## `AsyncREPL.add_image` / `AsyncREPL.clear_images`

`async_repl.py`: `add_image` increments `_image_counter`, forms the id
`f"img_{counter:03d}"` (decimal digits zero-padded on the left to width at
least three) and stores the `ImageData` under that id; `clear_images`
empties `_image_buffer` and leaves the counter alone. -/

/-- Little-endian decimal digits of `n`, with fuel (`decDigits n` uses fuel
`n`, which always suffices). -/
def decDigitsF : Nat → Nat → List Nat
  | 0, _ => []
  | _ + 1, 0 => []
  | fuel + 1, n + 1 => ((n + 1) % 10) :: decDigitsF fuel ((n + 1) / 10)

/-- Little-endian decimal digits of `n` (empty for `0`). -/
def decDigits (n : Nat) : List Nat := decDigitsF n n

/-- The character of one decimal digit. -/
def digitChar : Nat → Char
  | 0 => '0' | 1 => '1' | 2 => '2' | 3 => '3' | 4 => '4'
  | 5 => '5' | 6 => '6' | 7 => '7' | 8 => '8' | 9 => '9'
  | _ => '*'

/-- Inverse of `digitChar` on decimal digits. -/
def charDigit (c : Char) : Nat := c.toNat - 48

/-- Value of a little-endian decimal digit list. -/
def undigits : List Nat → Nat
  | [] => 0
  | d :: ds => d + 10 * undigits ds

/-- `f"{n:03d}"`: decimal digits of `n`, left-padded with `'0'` to width 3. -/
def padNum3 (n : Nat) : Str :=
  List.replicate (3 - (decDigits n).length) '0' ++ (decDigits n).reverse.map digitChar

/-- The attachment id `f"img_{n:03d}"`. -/
def imgId (n : Nat) : Str := 'i' :: 'm' :: 'g' :: '_' :: padNum3 n

example : imgId 1 = "img_001".toList := by decide
example : imgId 1000 = "img_1000".toList := by decide

theorem undigits_decDigitsF (fuel : Nat) :
    ∀ n, n ≤ fuel → undigits (decDigitsF fuel n) = n := by
  induction fuel with
  | zero =>
    intro n h
    interval_cases n
    rfl
  | succ fuel ih =>
    intro n h
    cases n with
    | zero => rfl
    | succ m =>
      have hdiv : (m + 1) / 10 ≤ fuel := by
        have := Nat.div_le_self (m + 1) 10
        have h2 : (m + 1) / 10 < m + 1 := Nat.div_lt_self (Nat.succ_pos m) (by omega)
        omega
      simp only [decDigitsF, undigits, ih _ hdiv]
      omega

theorem decDigitsF_lt_ten (fuel : Nat) :
    ∀ n, ∀ d ∈ decDigitsF fuel n, d < 10 := by
  induction fuel with
  | zero => intro n d hd; cases hd
  | succ fuel ih =>
    intro n d hd
    cases n with
    | zero => cases hd
    | succ m =>
      simp only [decDigitsF, List.mem_cons] at hd
      rcases hd with hd | hd
      · rw [hd]; exact Nat.mod_lt _ (by omega)
      · exact ih _ d hd

theorem charDigit_digitChar {d : Nat} (h : d < 10) : charDigit (digitChar d) = d := by
  interval_cases d <;> rfl

theorem undigits_append (l1 l2 : List Nat) :
    undigits (l1 ++ l2) = undigits l1 + 10 ^ l1.length * undigits l2 := by
  induction l1 with
  | nil => simp [undigits]
  | cons d ds ih =>
    show undigits (d :: (ds ++ l2)) = _
    simp only [undigits, ih, List.length_cons]
    ring

theorem undigits_replicate_zero (k : Nat) : undigits (List.replicate k 0) = 0 := by
  induction k with
  | zero => rfl
  | succ k ih => simp [List.replicate_succ, undigits, ih]

theorem undigits_decDigits (n : Nat) : undigits (decDigits n) = n :=
  undigits_decDigitsF n n (Nat.le_refl n)

/-- Decoding `padNum3` recovers the number, so padded ids are injective. -/
theorem decode_padNum3 (n : Nat) :
    undigits (((padNum3 n).map charDigit).reverse) = n := by
  have hmap : (decDigits n).map (fun d => charDigit (digitChar d)) = decDigits n := by
    have : ∀ d ∈ decDigits n, charDigit (digitChar d) = d := fun d hd =>
      charDigit_digitChar (decDigitsF_lt_ten n n d hd)
    calc (decDigits n).map (fun d => charDigit (digitChar d))
        = (decDigits n).map id := List.map_congr_left this
      _ = decDigits n := List.map_id _
  simp only [padNum3, List.map_append, List.map_replicate, List.map_map, List.map_reverse,
    List.reverse_append, List.reverse_reverse, List.reverse_replicate]
  have hcd : charDigit '0' = 0 := rfl
  rw [hcd]
  have : (decDigits n).map (charDigit ∘ digitChar) = decDigits n := by
    simpa [Function.comp] using hmap
  rw [this, undigits_append, undigits_replicate_zero, undigits_decDigits]
  ring

theorem imgId_inj {m n : Nat} (h : imgId m = imgId n) : m = n := by
  have hpad : padNum3 m = padNum3 n := by
    simpa [imgId] using h
  have := decode_padNum3 m
  rw [hpad, decode_padNum3 n] at this
  omega

/-- The state of `AsyncREPL` relevant to the image buffer:
`_image_counter` and `_image_buffer` (a dict in insertion order). -/
structure ReplState where
  imageCounter : Nat
  imageBuffer : List (Str × ImageData)
deriving DecidableEq

/-- Python dict assignment `d[k] = v`: replace in place if the key exists,
else append. -/
def dictSet {B : Type} (l : List (Str × B)) (k : Str) (v : B) : List (Str × B) :=
  if l.any fun p => p.1 == k then l.map fun p => if p.1 == k then (p.1, v) else p
  else l ++ [(k, v)]

/-- `AsyncREPL.add_image`: increment the counter, form the id, store the
image under it, and return the id. -/
def add_image (st : ReplState) (imgBytes : List Nat) (mediaType : String) (now : Nat) :
    ReplState × Str :=
  let c := st.imageCounter + 1
  let id := imgId c
  ({ imageCounter := c,
     imageBuffer := dictSet st.imageBuffer id ⟨imgBytes, mediaType, now⟩ }, id)

/-- `AsyncREPL.clear_images`: `self._image_buffer.clear()`; the counter is
not touched. -/
def clear_images (st : ReplState) : ReplState := { st with imageBuffer := [] }

/-- One session-level operation on the image buffer. -/
inductive ReplOp
  | addImage (imgBytes : List Nat) (mediaType : String) (now : Nat)
  | clearImages

/-- Run a sequence of operations, collecting the ids `add_image` returns. -/
def runOps : ReplState → List ReplOp → ReplState × List Str
  | st, [] => (st, [])
  | st, .addImage b m t :: ops =>
    let r := add_image st b m t
    let q := runOps r.1 ops
    (q.1, r.2 :: q.2)
  | st, .clearImages :: ops => runOps (clear_images st) ops

/-- `AsyncREPL.__init__`: counter `0`, empty buffer. -/
def initialRepl : ReplState := { imageCounter := 0, imageBuffer := [] }

/-- Every key in the buffer is the id of some counter value already used. -/
def BufferKeysBounded (st : ReplState) : Prop :=
  ∀ p ∈ st.imageBuffer, ∃ k, k ≤ st.imageCounter ∧ p.1 = imgId k

theorem buffer_any_new_id_false (st : ReplState) (h : BufferKeysBounded st) :
    (st.imageBuffer.any fun p => p.1 == imgId (st.imageCounter + 1)) = false := by
  rcases Bool.eq_false_or_eq_true
      (st.imageBuffer.any fun p => p.1 == imgId (st.imageCounter + 1)) with ha | ha
  · simp only [List.any_eq_true] at ha
    obtain ⟨p, hp, hpe⟩ := ha
    obtain ⟨k, hk, hkey⟩ := h p hp
    have : imgId k = imgId (st.imageCounter + 1) := by
      rw [← hkey]
      exact eq_of_beq hpe
    have := imgId_inj this
    omega
  · exact ha

theorem add_image_appends (st : ReplState) (h : BufferKeysBounded st)
    (b : List Nat) (m : String) (t : Nat) :
    (add_image st b m t).1.imageBuffer
      = st.imageBuffer ++ [((add_image st b m t).2, ⟨b, m, t⟩)] := by
  simp only [add_image, dictSet, buffer_any_new_id_false st h, Bool.false_eq_true, if_false]

theorem bufferKeysBounded_add (st : ReplState) (h : BufferKeysBounded st)
    (b : List Nat) (m : String) (t : Nat) :
    BufferKeysBounded (add_image st b m t).1 := by
  intro p hp
  rw [add_image_appends st h b m t] at hp
  simp only [List.mem_append, List.mem_singleton] at hp
  rcases hp with hp | hp
  · obtain ⟨k, hk, hkey⟩ := h p hp
    exact ⟨k, by simp only [add_image]; omega, hkey⟩
  · refine ⟨st.imageCounter + 1, by simp only [add_image]; omega, ?_⟩
    rw [hp]
    rfl

theorem runOps_counter_le (ops : List ReplOp) :
    ∀ st : ReplState, st.imageCounter ≤ (runOps st ops).1.imageCounter := by
  induction ops with
  | nil => intro st; exact Nat.le_refl _
  | cons op ops ih =>
    intro st
    cases op with
    | addImage b m t =>
      have := ih (add_image st b m t).1
      simp only [runOps]
      simp only [add_image] at this ⊢
      omega
    | clearImages =>
      have := ih (clear_images st)
      simp only [runOps]
      simpa [clear_images] using this

theorem runOps_ids_gt (ops : List ReplOp) :
    ∀ st : ReplState, ∀ id ∈ (runOps st ops).2,
      ∃ k, st.imageCounter < k ∧ id = imgId k := by
  induction ops with
  | nil => intro st id hid; cases hid
  | cons op ops ih =>
    intro st id hid
    cases op with
    | addImage b m t =>
      simp only [runOps, List.mem_cons] at hid
      rcases hid with hid | hid
      · exact ⟨st.imageCounter + 1, Nat.lt_succ_self _, by rw [hid]; rfl⟩
      · obtain ⟨k, hk, hkey⟩ := ih (add_image st b m t).1 id hid
        simp only [add_image] at hk
        exact ⟨k, by omega, hkey⟩
    | clearImages =>
      obtain ⟨k, hk, hkey⟩ := ih (clear_images st) id hid
      exact ⟨k, by simpa [clear_images] using hk, hkey⟩

theorem runOps_ids_nodup (ops : List ReplOp) :
    ∀ st : ReplState, ((runOps st ops).2).Nodup := by
  induction ops with
  | nil => intro st; exact List.nodup_nil
  | cons op ops ih =>
    intro st
    cases op with
    | addImage b m t =>
      simp only [runOps]
      refine List.nodup_cons.mpr ⟨?_, ih (add_image st b m t).1⟩
      intro hmem
      obtain ⟨k, hk, hkey⟩ := runOps_ids_gt ops (add_image st b m t).1 _ hmem
      simp only [add_image] at hk
      have := imgId_inj hkey
      omega
    | clearImages => exact ih (clear_images st)

/-- C10: every call to `add_image` returns a fresh id `img_NNN` taken from
the strictly increasing counter; the counter is never reset (not even by
`clear_images`), so no id is ever returned twice and a newly added image
never overwrites an existing buffer entry (it is appended). -/
theorem add_image_fresh_ids :
    (∀ st b m t, (add_image st b m t).2 = imgId (st.imageCounter + 1)
      ∧ (add_image st b m t).1.imageCounter = st.imageCounter + 1)
  ∧ (∀ st, (clear_images st).imageCounter = st.imageCounter
      ∧ (clear_images st).imageBuffer = [])
  ∧ (∀ m n, imgId m = imgId n → m = n)
  ∧ (∀ st b m t, BufferKeysBounded st →
      (add_image st b m t).1.imageBuffer
        = st.imageBuffer ++ [((add_image st b m t).2, ⟨b, m, t⟩)])
  ∧ (∀ ops, ((runOps initialRepl ops).2).Nodup) :=
  ⟨fun _ _ _ _ => ⟨rfl, rfl⟩,
   fun _ => ⟨rfl, rfl⟩,
   fun _ _ h => imgId_inj h,
   fun st b m t h => add_image_appends st h b m t,
   fun ops => runOps_ids_nodup ops initialRepl⟩

/-- Witness for C10: adding to the fresh session appends under id
`img_001`. -/
theorem add_image_fresh_ids_witness :
    (add_image initialRepl [1] "image/png" 5).1.imageBuffer
      = [("img_001".toList, ⟨[1], "image/png", 5⟩)] := by
  rw [add_image_fresh_ids.2.2.2.1 initialRepl [1] "image/png" 5
    (fun p hp => absurd hp (by simp [initialRepl]))]
  decide

/-! ## `actions/registry.py`: the action registry

The `Action` and `ActionContext` dataclasses live in
`repl_toolkit/actions/action.py`, which is not part of the sources at
hand; their fields are modelled from the specification (name, description,
category, handler-or-sentinel, optional command, command usage, key
chords, key description, enabled and hidden flags; the context carries the
trigger source, the argument list and the raw input).  Handler exceptions
(Python `Exception`) are modelled as `Except Str`; a handler given as a
dotted import string resolves to a callable through `importlib` and is
modelled directly as the resolved callable. -/

/-- The per-invocation context passed to a handler (`ActionContext`).
Modelled from the spec: the registry/backend/UI references it also carries
are irrelevant to the claims and omitted. -/
structure ActionContext where
  args : List Str
  triggeredBy : String
  userInput : Str

/-- Modelled from the spec: the `Action` descriptor
(`actions/action.py` is absent from the sources); `handler = none` is the
"handled by the main loop" sentinel, and `get_keys_list` returns `keys`.
Named `ReplAction` here because `Action` is taken by the ambient library. -/
structure ReplAction where
  name : Str
  description : Str
  category : Str
  handler : Option (ActionContext → Except Str Unit)
  command : Option Str
  commandUsage : Str
  keys : List Str
  keysDescription : Str
  enabled : Bool
  hidden : Bool

/-- The three lookup tables of `ActionRegistry`: `self.actions`,
`self.command_map`, `self.key_map` (dicts in insertion order).  The
handler cache and backend binding play no part in the claims. -/
structure ActionRegistry where
  actions : List (Str × ReplAction)
  command_map : List (Str × Str)
  key_map : List (Str × Str)

/-- Python truthiness of the optional command string (`if action.command:`
is false for `None` and for the empty string). -/
def cmdTruthy : Option Str → Bool
  | none => false
  | some s => !s.isEmpty

/-- The command string to use as a key (only read under `cmdTruthy`). -/
def cmdKey (c : Option Str) : Str := c.getD []

/-- A registration conflict (`ActionValidationError`), naming the
offending field. -/
inductive RegConflict
  | nameExists (name : Str)
  | commandBound (cmd : Str) (existing : Str)
  | keyBound (key : Str) (existing : Str)
deriving DecidableEq

/-- The key-conflict loop of `register_action`: the first key chord
already bound, if any. -/
def findKeyConflict (km : List (Str × Str)) : List Str → Option Str
  | [] => none
  | k :: ks => if (List.lookup k km).isSome then some k else findKeyConflict km ks

/-- `ActionRegistry.register_action`.  The Python method mutates `self` in
place and raises on conflict; the embedding makes the state at raise time
explicit by returning it next to the error, so "the registry is unchanged
on failure" is a statement about the returned state, not a triviality of
purity.  All three validations precede the first mutation. -/
def register_action (reg : ActionRegistry) (a : ReplAction) :
    Except (RegConflict × ActionRegistry) ActionRegistry :=
  if (List.lookup a.name reg.actions).isSome then
    .error (.nameExists a.name, reg)
  else if cmdTruthy a.command && (List.lookup (cmdKey a.command) reg.command_map).isSome then
    .error (.commandBound (cmdKey a.command)
      ((List.lookup (cmdKey a.command) reg.command_map).getD []), reg)
  else
    match findKeyConflict reg.key_map a.keys with
    | some k => .error (.keyBound k ((List.lookup k reg.key_map).getD []), reg)
    | none =>
      let reg1 : ActionRegistry := { reg with actions := dictSet reg.actions a.name a }
      let reg2 : ActionRegistry :=
        if cmdTruthy a.command then
          { reg1 with command_map := dictSet reg1.command_map (cmdKey a.command) a.name }
        else reg1
      .ok { reg2 with key_map := a.keys.foldl (fun km k => dictSet km k a.name) reg2.key_map }

/-- `ActionRegistry.get_action`. -/
def get_action (reg : ActionRegistry) (name : Str) : Option ReplAction :=
  List.lookup name reg.actions

/-- `ActionRegistry.get_action_by_command`: look the command up in
`command_map`, then (if the name is truthy) in `actions`. -/
def get_action_by_command (reg : ActionRegistry) (command : Str) : Option ReplAction :=
  match List.lookup command reg.command_map with
  | none => none
  | some n => if n.isEmpty then none else List.lookup n reg.actions

/-- Errors out of `execute_action`: `ActionError` for an unknown name,
`ActionExecutionError` (carrying the action name) for a handler that
raised. -/
inductive ExecErr
  | notFound (name : Str)
  | executionError (msg : Str) (name : Str)
deriving DecidableEq

/-- How `execute_action` returned without error. -/
inductive ExecResult
  | skippedDisabled
  | mainLoop
  | executed
deriving DecidableEq

/-- `ActionRegistry.execute_action`: unknown name raises; a disabled
action returns without running anything; a `None` handler (main-loop
sentinel) returns without running anything; otherwise the handler runs on
the context and any exception it raises is re-raised as
`ActionExecutionError` naming the action. -/
def execute_action (reg : ActionRegistry) (name : Str) (ctx : ActionContext) :
    Except ExecErr ExecResult :=
  match List.lookup name reg.actions with
  | none => .error (.notFound name)
  | some a =>
    if !a.enabled then .ok .skippedDisabled
    else
      match a.handler with
      | none => .ok .mainLoop
      | some h =>
        match h ctx with
        | .ok _ => .ok .executed
        | .error e => .error (.executionError e a.name)

/-- Python whitespace (`str.split()` / `str.strip()` with no argument):
space, tab, newline, carriage return, vertical tab, form feed. -/
def pyIsSpace (c : Char) : Bool := c.isWhitespace || c == '\x0b' || c == '\x0c'

/-- `str.strip()`: drop whitespace from both ends. -/
def pyStrip (cs : Str) : Str :=
  ((cs.dropWhile pyIsSpace).reverse.dropWhile pyIsSpace).reverse

/-- Tokenizer loop for `str.split()`: `acc` is the current token,
reversed. -/
def pySplitAux : Str → Str → List Str
  | [], acc => if acc.isEmpty then [] else [acc.reverse]
  | c :: cs, acc =>
    if pyIsSpace c then
      if acc.isEmpty then pySplitAux cs [] else acc.reverse :: pySplitAux cs []
    else pySplitAux cs (c :: acc)

/-- `str.split()` with no argument: split on runs of whitespace, no empty
tokens. -/
def pySplit (cs : Str) : List Str := pySplitAux cs []

example : pySplit "  /ping  a b ".toList = ["/ping".toList, "a".toList, "b".toList] := by decide
example : pySplit "".toList = [] := by decide

/-- Prefix the command marker when missing (`if not command.startswith('/')`). -/
def ensureSlash (cmd : Str) : Str :=
  match cmd with
  | '/' :: _ => cmd
  | _ => '/' :: cmd

/-- The first line printed for an unknown command. -/
def unknownMsg (c : Str) : Str := "Unknown command: ".toList ++ c

/-- The second line printed for an unknown command. -/
def helpHint : Str := "Use /help to see available commands.".toList

/-- Rendering of an `ExecErr` in the `print(f"Error: {e}")` handler. -/
def renderErr : ExecErr → Str
  | .notFound n => "Action not found: ".toList ++ n
  | .executionError msg n =>
    "Failed to execute action ".toList ++ n ++ ": ".toList ++ msg

/-- `ActionRegistry.handle_command`: strip and whitespace-tokenize the raw
string; the first token (prefixed with `/` when missing) is the command
and the rest are the arguments; an unknown command prints its two
messages without raising; otherwise the action is executed with a fresh
command context, `ActionError`s being caught and printed.  Returns the
printed user-visible messages and, when an action was dispatched, the
result of `execute_action`. -/
def handle_command (reg : ActionRegistry) (raw : Str) :
    List Str × Option (Except ExecErr ExecResult) :=
  match pySplit (pyStrip raw) with
  | [] => ([], none)
  | cmd :: args =>
    let command := ensureSlash cmd
    match get_action_by_command reg command with
    | none => ([unknownMsg command, helpHint], none)
    | some a =>
      let ctx : ActionContext := { args := args, triggeredBy := "command", userInput := raw }
      match execute_action reg a.name ctx with
      | .ok r => ([], some (.ok r))
      | .error e => (["Error: ".toList ++ renderErr e], some (.error e))

/-- A registry whose three tables are empty (for concrete dispatch
scenarios; the unknown-command path only reads `command_map`). -/
def bareRegistry : ActionRegistry :=
  { actions := [], command_map := [], key_map := [] }

/-- An enabled action named `ping`, bound to `/ping`, with the given
handler. -/
def pingAction (h : ActionContext → Except Str Unit) : ReplAction :=
  { name := "ping".toList
    description := "ping".toList
    category := "General".toList
    handler := some h
    command := some "/ping".toList
    commandUsage := []
    keys := []
    keysDescription := []
    enabled := true
    hidden := false }

/-- A registry holding exactly the `ping` action. -/
def pingReg (h : ActionContext → Except Str Unit) : ActionRegistry :=
  { actions := [("ping".toList, pingAction h)]
    command_map := [("/ping".toList, "ping".toList)]
    key_map := [] }

theorem findKeyConflict_isSome_of_mem {km : List (Str × Str)} {ks : List Str} {k : Str}
    (hk : k ∈ ks) (h : (List.lookup k km).isSome = true) :
    ∃ c, findKeyConflict km ks = some c := by
  induction ks with
  | nil => cases hk
  | cons a ks ih =>
    simp only [findKeyConflict]
    by_cases ha : (List.lookup a km).isSome = true
    · exact ⟨a, by simp [ha]⟩
    · rcases List.mem_cons.mp hk with hk | hk
      · exact absurd (hk ▸ h) ha
      · obtain ⟨c, hc⟩ := ih hk
        exact ⟨c, by simp [ha, hc]⟩

/-- C2: for every registry state and every action whose name, command, or
any key chord collides with an already-registered one, `register_action`
raises a `RegistrationConflict` and the registry's three lookup tables are
exactly the ones it started with — no partial mutation: all validation
precedes the first mutation. -/
theorem register_action_conflict_atomic (reg : ActionRegistry) (a : ReplAction)
    (h : (List.lookup a.name reg.actions).isSome = true
       ∨ (cmdTruthy a.command = true
            ∧ (List.lookup (cmdKey a.command) reg.command_map).isSome = true)
       ∨ (∃ k ∈ a.keys, (List.lookup k reg.key_map).isSome = true)) :
    ∃ e, register_action reg a = .error (e, reg) := by
  unfold register_action
  by_cases h1 : (List.lookup a.name reg.actions).isSome = true
  · exact ⟨.nameExists a.name, by simp [h1]⟩
  · have h1f : (List.lookup a.name reg.actions).isSome = false := by
      rcases Bool.eq_false_or_eq_true (List.lookup a.name reg.actions).isSome with hx | hx
      · exact absurd hx h1
      · exact hx
    by_cases h2 : (cmdTruthy a.command
        && (List.lookup (cmdKey a.command) reg.command_map).isSome) = true
    · refine ⟨.commandBound (cmdKey a.command)
        ((List.lookup (cmdKey a.command) reg.command_map).getD []), ?_⟩
      simp [h1f, h2]
    · have h2f : (cmdTruthy a.command
          && (List.lookup (cmdKey a.command) reg.command_map).isSome) = false := by
        rcases Bool.eq_false_or_eq_true (cmdTruthy a.command
            && (List.lookup (cmdKey a.command) reg.command_map).isSome) with hx | hx
        · exact absurd hx h2
        · exact hx
      rcases h with hname | hcmd | hkey
      · exact absurd hname h1
      · exact absurd (by simp [hcmd.1, hcmd.2]) h2
      · obtain ⟨k, hkmem, hkl⟩ := hkey
        obtain ⟨c, hc⟩ := findKeyConflict_isSome_of_mem hkmem hkl
        refine ⟨.keyBound c ((List.lookup c reg.key_map).getD []), ?_⟩
        simp [h1f, h2f, hc]

/-- A registered action with neither command nor keys, used as a concrete
name-collision input. -/
def dupAction : ReplAction :=
  { name := "x".toList
    description := []
    category := []
    handler := none
    command := none
    commandUsage := []
    keys := []
    keysDescription := []
    enabled := true
    hidden := false }

/-- A registry already holding `dupAction`. -/
def dupReg : ActionRegistry :=
  { actions := [("x".toList, dupAction)], command_map := [], key_map := [] }

/-- Witness for C2: re-registering the same name fails and returns the
unchanged registry. -/
theorem register_action_conflict_atomic_witness :
    ∃ e, register_action dupReg dupAction = .error (e, dupReg) :=
  register_action_conflict_atomic dupReg dupAction (Or.inl (by decide))

/-- C5: `execute_action` fails with the unknown-action error when the name
is not registered; returns without invoking anything when the action is
disabled or its handler is the main-loop sentinel; otherwise invokes the
handler on the context synchronously, and an exception raised by the
handler is re-signaled as `ActionExecutionError` carrying the action name
— never in its original form. -/
theorem execute_action_spec (reg : ActionRegistry) (name : Str) (ctx : ActionContext) :
    (List.lookup name reg.actions = none →
      execute_action reg name ctx = .error (.notFound name))
  ∧ (∀ a, List.lookup name reg.actions = some a →
      (a.enabled = false → execute_action reg name ctx = .ok .skippedDisabled)
    ∧ (a.enabled = true → a.handler = none → execute_action reg name ctx = .ok .mainLoop)
    ∧ (∀ hf, a.enabled = true → a.handler = some hf →
        execute_action reg name ctx
          = match hf ctx with
            | .ok _ => .ok .executed
            | .error e => .error (.executionError e a.name))) := by
  refine ⟨?_, ?_⟩
  · intro hn
    simp [execute_action, hn]
  · intro a ha
    refine ⟨?_, ?_, ?_⟩
    · intro hdis
      simp [execute_action, ha, hdis]
    · intro hen hh
      simp [execute_action, ha, hen, hh]
    · intro hf hen hh
      simp only [execute_action, ha, hen, hh, Bool.not_true, Bool.false_eq_true, if_false]

/-- An enabled action whose handler always raises. -/
def boomAction : ReplAction :=
  { name := "boom".toList
    description := []
    category := []
    handler := some fun _ => .error "fail".toList
    command := none
    commandUsage := []
    keys := []
    keysDescription := []
    enabled := true
    hidden := false }

/-- A registry holding exactly `boomAction`. -/
def boomReg : ActionRegistry :=
  { actions := [("boom".toList, boomAction)], command_map := [], key_map := [] }

/-- A programmatic context with no arguments. -/
def plainCtx : ActionContext :=
  { args := [], triggeredBy := "programmatic", userInput := [] }

/-- Witness for C5: the raising handler surfaces as `ActionExecutionError`
naming the action. -/
theorem execute_action_spec_witness :
    execute_action boomReg "boom".toList plainCtx
      = .error (.executionError "fail".toList "boom".toList) := by
  have h := ((execute_action_spec boomReg "boom".toList plainCtx).2 boomAction rfl).2.2
    (fun _ => .error "fail".toList) rfl rfl
  rw [h]
  rfl

/-- Dispatch equation for a nonempty token list: the first token, slash-
prefixed when needed, selects the action; an unknown command prints its
two messages and invokes nothing; a bound command executes the action with
the remaining tokens as the context's argument list. -/
theorem handle_command_dispatch (reg : ActionRegistry) (raw cmd : Str) (args : List Str)
    (hsplit : pySplit (pyStrip raw) = cmd :: args) :
    (get_action_by_command reg (ensureSlash cmd) = none →
      handle_command reg raw = ([unknownMsg (ensureSlash cmd), helpHint], none))
  ∧ (∀ a, get_action_by_command reg (ensureSlash cmd) = some a →
      handle_command reg raw
        = match execute_action reg a.name
              { args := args, triggeredBy := "command", userInput := raw } with
          | .ok r => ([], some (.ok r))
          | .error e => (["Error: ".toList ++ renderErr e], some (.error e))) := by
  constructor
  · intro hga
    simp [handle_command, hsplit, hga]
  · intro a hga
    simp only [handle_command, hsplit, hga]

/-- The turn context `handle_command` builds for `/ping a b`. -/
def pingCtx : ActionContext :=
  { args := ["a".toList, "b".toList]
    triggeredBy := "command"
    userInput := "/ping a b".toList }

/-- C6 counterexample: for the unknown command `/nope` against the bare
registry, `handle_command` invokes no handler and raises nothing, but
emits exactly two user-visible messages, not one as claimed. -/
theorem handle_command_unknown_two_messages :
    ((handle_command bareRegistry ("/nope".toList)).2).isNone = true
  ∧ ((handle_command bareRegistry ("/nope".toList)).1).length = 2
  ∧ ¬ ((handle_command bareRegistry ("/nope".toList)).1).length = 1 := by
  refine ⟨rfl, rfl, ?_⟩
  intro hx
  have : (2 : Nat) = 1 := by
    rw [← hx]
    rfl
  cases this

/-- C6 (amended): `handle_command` tokenizes the raw string on whitespace
(after stripping), prefixes the first token with `/` when missing, and
passes the remaining tokens as the handler context's argument list — so
`/ping a b` against an action bound to `/ping` invokes its handler with
args `["a", "b"]`; for an unknown command it invokes no handler, raises no
exception, and emits exactly two user-visible messages (the
unknown-command notice and the help hint). -/
theorem handle_command_spec :
    (∀ reg raw, pySplit (pyStrip raw) = [] → handle_command reg raw = ([], none))
  ∧ (∀ reg raw cmd args, pySplit (pyStrip raw) = cmd :: args →
      get_action_by_command reg (ensureSlash cmd) = none →
      handle_command reg raw = ([unknownMsg (ensureSlash cmd), helpHint], none))
  ∧ (∀ reg raw cmd args a, pySplit (pyStrip raw) = cmd :: args →
      get_action_by_command reg (ensureSlash cmd) = some a →
      handle_command reg raw
        = match execute_action reg a.name
              { args := args, triggeredBy := "command", userInput := raw } with
          | .ok r => ([], some (.ok r))
          | .error e => (["Error: ".toList ++ renderErr e], some (.error e)))
  ∧ (∀ hf : ActionContext → Except Str Unit,
      handle_command (pingReg hf) ("/ping a b".toList)
        = match hf pingCtx with
          | .ok _ => ([], some (.ok .executed))
          | .error e => (["Error: ".toList ++ renderErr (.executionError e ("ping".toList))],
              some (.error (.executionError e ("ping".toList))))) := by
  refine ⟨?_, ?_, ?_, ?_⟩
  · intro reg raw h0
    simp [handle_command, h0]
  · intro reg raw cmd args hsplit hga
    exact (handle_command_dispatch reg raw cmd args hsplit).1 hga
  · intro reg raw cmd args a hsplit hga
    exact (handle_command_dispatch reg raw cmd args hsplit).2 a hga
  · intro hf
    have hd := (handle_command_dispatch (pingReg hf) ("/ping a b".toList)
        ("/ping".toList) ["a".toList, "b".toList] (by decide)).2 (pingAction hf) rfl
    have hd2 : handle_command (pingReg hf) ("/ping a b".toList)
        = match execute_action (pingReg hf) ("ping".toList) pingCtx with
          | .ok r => ([], some (.ok r))
          | .error e => (["Error: ".toList ++ renderErr e], some (.error e)) := hd
    have hexec : execute_action (pingReg hf) ("ping".toList) pingCtx
        = match hf pingCtx with
          | .ok _ => .ok .executed
          | .error e => .error (.executionError e ("ping".toList)) := rfl
    rw [hd2, hexec]
    cases hres : hf pingCtx with
    | ok u => rfl
    | error e => rfl

/-- Witness for C6 (amended): the always-succeeding handler dispatches
silently, and the unknown command prints its two messages. -/
theorem handle_command_spec_witness :
    handle_command (pingReg fun _ => .ok ()) ("/ping a b".toList) = ([], some (.ok .executed))
  ∧ handle_command bareRegistry ("/nope".toList)
      = ([unknownMsg (ensureSlash ("/nope".toList)), helpHint], none) :=
  ⟨(handle_command_spec.2.2.2 fun _ => .ok ()).trans rfl,
   handle_command_spec.2.1 bareRegistry ("/nope".toList) ("/nope".toList) [] (by decide) rfl⟩

/-! ## `headless.py`: `run_headless_mode`

The loop reads lines, strips trailing CR/LF from each, buffers them, and
on a line whose whitespace-stripped content equals the sentinel `{{send}}`
flushes the buffer: the buffered lines joined with newlines, stripped, are
sent as one message unless empty; end-of-stream flushes the remainder the
same way.  Only the sequence of messages handed to
`backend.handle_input` is modelled (the success flag and the optional
initial message are orthogonal to the claim). -/

/-- The reserved sentinel token `{{send}}`. -/
def sentinelTok : Str := "\x7b\x7bsend\x7d\x7d".toList

/-- `line.rstrip('\n\r')`: strip trailing newline and carriage-return
characters. -/
def rstripNL (cs : Str) : Str :=
  (cs.reverse.dropWhile fun c => c == '\n' || c == '\r').reverse

/-- Flush one buffer: `'\n'.join(buffer).strip()`, skipped when empty. -/
def emitBuf (buffer : List Str) : List Str :=
  let m := pyStrip (List.intercalate ['\n'] buffer)
  if m.isEmpty then [] else [m]

/-- The line loop of `run_headless_mode`, returning the messages passed to
`backend.handle_input` in order. -/
def headlessMessages : List Str → List Str → List Str
  | [], buffer => if buffer.isEmpty then [] else emitBuf buffer
  | line :: rest, buffer =>
    let l := rstripNL line
    if pyStrip l == sentinelTok then
      if buffer.isEmpty then headlessMessages rest buffer
      else emitBuf buffer ++ headlessMessages rest []
    else headlessMessages rest (buffer ++ [l])

/-- `run_headless_mode(stream)`: start with an empty buffer. -/
def run_headless_messages (lines : List Str) : List Str := headlessMessages lines []

/-- Modelled from the spec: the messages claim C7 predicts, word for word
— a line *exactly equal* to the sentinel ends the turn, the buffered
lines *joined* (not stripped) are sent as one message, any other line is
appended verbatim, and end-of-stream flushes a non-empty buffer. -/
def headlessClaimMessages : List Str → List Str → List Str
  | [], buffer => if buffer.isEmpty then [] else [List.intercalate ['\n'] buffer]
  | line :: rest, buffer =>
    if line == sentinelTok then
      (if buffer.isEmpty then [] else [List.intercalate ['\n'] buffer])
        ++ headlessClaimMessages rest []
    else headlessClaimMessages rest (buffer ++ [line])

/-- C7 counterexample: on the single line `" {{send}}"` (the sentinel with
a leading space) the code recognizes the sentinel after stripping and
sends nothing, while the claim as stated appends the line and flushes it
at end-of-stream. -/
theorem run_headless_sentinel_cex :
    run_headless_messages [(" \x7b\x7bsend\x7d\x7d").toList] = []
  ∧ headlessClaimMessages [(" \x7b\x7bsend\x7d\x7d").toList] []
      = [(" \x7b\x7bsend\x7d\x7d").toList]
  ∧ run_headless_messages [(" \x7b\x7bsend\x7d\x7d").toList]
      ≠ headlessClaimMessages [(" \x7b\x7bsend\x7d\x7d").toList] [] := by decide

/-- A line that ends the buffered turn: equal to the sentinel after
CR/LF-stripping and whitespace-stripping. -/
def isSentinelLine (l : Str) : Bool := pyStrip (rstripNL l) == sentinelTok

/-- Modelled from the spec (amended reading): the input lines grouped into
the run before the first sentinel line and the runs after each sentinel
line. -/
def splitChunks : List Str → List Str × List (List Str)
  | [] => ([], [])
  | l :: ls =>
    let r := splitChunks ls
    if isSentinelLine l then ([], r.1 :: r.2)
    else (l :: r.1, r.2)

theorem headlessMessages_sentinel (l : Str) (ls : List Str) (buffer : List Str)
    (hs : isSentinelLine l = true) :
    headlessMessages (l :: ls) buffer = emitBuf buffer ++ headlessMessages ls [] := by
  have hs' : (pyStrip (rstripNL l) == sentinelTok) = true := hs
  simp only [headlessMessages, hs', if_true]
  by_cases hb : buffer.isEmpty
  · rw [List.isEmpty_iff.mp hb]
    rfl
  · simp [hb]

theorem headlessMessages_other (l : Str) (ls : List Str) (buffer : List Str)
    (hs : isSentinelLine l = false) :
    headlessMessages (l :: ls) buffer = headlessMessages ls (buffer ++ [rstripNL l]) := by
  have hs' : (pyStrip (rstripNL l) == sentinelTok) = false := hs
  simp [headlessMessages, hs']

theorem headlessMessages_chunks (lines : List Str) :
    ∀ buffer : List Str,
      headlessMessages lines buffer
        = emitBuf (buffer ++ (splitChunks lines).1.map rstripNL)
          ++ ((splitChunks lines).2.map fun ch => emitBuf (ch.map rstripNL)).flatten := by
  induction lines with
  | nil =>
    intro buffer
    by_cases hb : buffer.isEmpty
    · rw [List.isEmpty_iff.mp hb]
      rfl
    · simp [headlessMessages, splitChunks, hb]
  | cons l ls ih =>
    intro buffer
    by_cases hs : isSentinelLine l
    · rw [headlessMessages_sentinel l ls buffer hs, ih []]
      have hsplit : splitChunks (l :: ls) = ([], (splitChunks ls).1 :: (splitChunks ls).2) := by
        simp [splitChunks, hs]
      rw [hsplit]
      simp [List.append_assoc]
    · have hs' : isSentinelLine l = false := by
        rcases Bool.eq_false_or_eq_true (isSentinelLine l) with hx | hx
        · exact absurd hx hs
        · exact hx
      rw [headlessMessages_other l ls buffer hs', ih (buffer ++ [rstripNL l])]
      have hsplit : splitChunks (l :: ls) = (l :: (splitChunks ls).1, (splitChunks ls).2) := by
        simp [splitChunks, hs']
      rw [hsplit]
      simp [List.append_assoc]

/-- C7 (amended): a line equal to `{{send}}` after stripping surrounding
whitespace ends the current buffered turn; each maximal run of other
lines, CR/LF-stripped per line, joined with newlines and whitespace-
stripped, is sent as one message when nonempty (the buffer is then
empty for the next turn); end-of-stream flushes the final run the same
way. -/
theorem run_headless_mode_spec (lines : List Str) :
    run_headless_messages lines
      = emitBuf ((splitChunks lines).1.map rstripNL)
        ++ ((splitChunks lines).2.map fun ch => emitBuf (ch.map rstripNL)).flatten := by
  rw [run_headless_messages, headlessMessages_chunks lines []]
  rfl

/-! ## `async_repl.py`: the cancellation coordinator

`_process_input` races the backend task against the cancel future with
`asyncio.wait(..., return_when=FIRST_COMPLETED)`; `done` is the set of
completed awaitables (nonempty, possibly both).  The branch on
`cancel_future in done` is taken first, so in a tie the cancellation
branch runs.  `_handle_cancellation` prints the cancellation notice once,
invokes `backend.cancel(...)` when the backend has the optional
capability (`isinstance(backend, CancellableBackend)`, a protocol whose
definition is not among the sources; the capability presence is modelled
as a boolean), and calls `backend_task.cancel()` only under the guard
`not backend_task.done()`. -/

/-- The resolution of the backend task once awaited: `handle_input`
returned a boolean, the task was cancelled, or it raised. -/
inductive BackendOutcome
  | ok (success : Bool)
  | cancelled
  | raised (msg : Str)
deriving DecidableEq

/-- The observable effects of one pass through the branch following
`asyncio.wait` in `_process_input`. -/
structure TurnReport where
  cancelNotices : Nat
  backendCancelCalled : Bool
  taskCancelRequested : Bool
  failureReported : Bool
  successBranchRan : Bool
deriving DecidableEq

/-- `AsyncREPL._handle_cancellation`: print the notice, invoke the
optional cancel capability when present, and request task cancellation
only if the task is not already done. -/
def handleCancellation (cancellable taskDone : Bool) : TurnReport :=
  { cancelNotices := 1
    backendCancelCalled := cancellable
    taskCancelRequested := !taskDone
    failureReported := false
    successBranchRan := false }

/-- The branch of `_process_input` after `asyncio.wait`: `cancel_future in
done` is tested first; otherwise `backend_task in done` reports failure
when the result is `False`, swallows a `CancelledError`, and logs any
other exception.  `FIRST_COMPLETED` guarantees at least one of the two
flags; the final catch-all branch is unreachable. -/
def processDecision (backendDone cancelDone cancellable : Bool) (res : BackendOutcome) :
    TurnReport :=
  if cancelDone then handleCancellation cancellable backendDone
  else if backendDone then
    { cancelNotices := 0
      backendCancelCalled := false
      taskCancelRequested := false
      failureReported := match res with | .ok false => true | _ => false
      successBranchRan := true }
  else
    { cancelNotices := 0
      backendCancelCalled := false
      taskCancelRequested := false
      failureReported := false
      successBranchRan := false }

/-- C1 counterexample: in the tie (both observed ready in the same
scheduling step) against a backend without the optional cancel
capability, the code takes the cancellation branch and reports once, but
issues no cancellation request at all: the task is already done, so the
guard `not backend_task.done()` skips `backend_task.cancel()`, and there
is no capability to invoke.  The claim's "requests cancellation of the
backend operation" fails here. -/
theorem tie_no_cancel_request :
    (processDecision true true false (.ok true)).cancelNotices = 1
  ∧ (processDecision true true false (.ok true)).successBranchRan = false
  ∧ (processDecision true true false (.ok true)).taskCancelRequested = false
  ∧ (processDecision true true false (.ok true)).backendCancelCalled = false := by
  decide

/-- C1 (amended): whenever the cancel slot is observed ready — in
particular in a same-step tie with the backend task — the coordinator
takes the cancellation branch and never the success branch: it reports
cancellation exactly once, invokes the backend's optional cancel
capability exactly when present, and requests task-level cancellation
exactly when the backend operation has not already completed (in a tie it
has, so no task cancellation is requested). -/
theorem tie_break_cancel_wins (backendDone cancellable : Bool) (res : BackendOutcome) :
    processDecision backendDone true cancellable res
      = { cancelNotices := 1
          backendCancelCalled := cancellable
          taskCancelRequested := !backendDone
          failureReported := false
          successBranchRan := false } := by
  cases backendDone <;> cases cancellable <;> rfl

/-- The state the three cancel-slot resolvers touch: the single-resolution
cancel future and the listener application. -/
structure CancelCtx where
  slotDone : Bool
  listenerDone : Bool
deriving DecidableEq

/-- `_set_cancel` (posted onto the loop by `trigger_cancel` via
`call_soon_threadsafe`): resolve the future only if not already done. -/
def setCancel (s : CancelCtx) : CancelCtx :=
  if s.slotDone then s else { s with slotDone := true }

/-- `trigger_cancel`: the cross-context trigger; its whole effect on the
slot is `_set_cancel`. -/
def triggerCancel (s : CancelCtx) : CancelCtx := setCancel s

/-- The `escape c` (Alt+C) handler: resolve the future if not done, then
exit the listener app if it is not already done. -/
def altCHandler (s : CancelCtx) : CancelCtx :=
  let s1 := setCancel s
  if s1.listenerDone then s1 else { s1 with listenerDone := true }

/-- The `c-c` (Ctrl+C) handler: resolve the future if not done, then exit
the listener app with `KeyboardInterrupt`. -/
def ctrlCHandler (s : CancelCtx) : CancelCtx :=
  let s1 := setCancel s
  { s1 with listenerDone := true }

/-- C8: resolving the cancel slot is idempotent — any first resolution
(from either cancel chord or the cross-context trigger) leaves the slot
resolved, and any further resolution attempt leaves the slot unchanged
and therefore cannot change the turn's outcome. -/
theorem cancel_slot_idempotent (s : CancelCtx) (f g : CancelCtx → CancelCtx)
    (hf : f = triggerCancel ∨ f = altCHandler ∨ f = ctrlCHandler)
    (hg : g = triggerCancel ∨ g = altCHandler ∨ g = ctrlCHandler) :
    (f s).slotDone = true
  ∧ (g (f s)).slotDone = (f s).slotDone
  ∧ (∀ backendDone cancellable res,
      processDecision backendDone ((g (f s)).slotDone) cancellable res
        = processDecision backendDone ((f s).slotDone) cancellable res) := by
  obtain ⟨a, b⟩ := s
  have h1 : (f ⟨a, b⟩).slotDone = true := by
    rcases hf with rfl | rfl | rfl <;> cases a <;> cases b <;> rfl
  have h2 : (g (f ⟨a, b⟩)).slotDone = (f ⟨a, b⟩).slotDone := by
    rcases hf with rfl | rfl | rfl <;> rcases hg with rfl | rfl | rfl <;>
      cases a <;> cases b <;> rfl
  exact ⟨h1, h2, fun backendDone cancellable res => by rw [h2]⟩

/-- Witness for C8: the cross-context trigger after Ctrl+C on a fresh
slot leaves the slot as Ctrl+C left it. -/
theorem cancel_slot_idempotent_witness :
    (triggerCancel (ctrlCHandler ⟨false, false⟩)).slotDone
      = (ctrlCHandler ⟨false, false⟩).slotDone :=
  (cancel_slot_idempotent ⟨false, false⟩ ctrlCHandler triggerCancel
    (Or.inr (Or.inr rfl)) (Or.inl rfl)).2.1

/-! ## `_cancellation_context`: teardown on every exit path

The async context manager wraps the body of `_process_input`; the body
either completes normally (backend success, backend failure, and user
cancel are all handled inside it) or raises (internal fault or
`KeyboardInterrupt`, the two `except` arms).  The `finally` block runs in
every case: clear the image buffer, `_cleanup_cancel_context` (exit the
cancel app when not done, cancel and await the listener task when not
done, exceptions swallowed), `_reset_ui` (renderer reset and redraw,
exceptions swallowed). -/

/-- A raised Python exception, as the context manager distinguishes
them. -/
inductive PyExn
  | keyboardInterrupt
  | cancelledError
  | exn (msg : Str)
deriving DecidableEq

/-- The per-turn session state `_cancellation_context` touches. -/
structure TurnState where
  imageBuffer : List (Str × ImageData)
  listenerRunning : Bool
  cancelSlotDone : Bool
  uiResetDone : Bool
deriving DecidableEq

/-- `AsyncREPL._cleanup_cancel_context`: both of its guarded branches
leave the listener stopped. -/
def cleanup_cancel_context (st : TurnState) : TurnState :=
  { st with listenerRunning := false }

/-- `AsyncREPL._reset_ui`: `renderer.reset()` and `invalidate()`. -/
def reset_ui (st : TurnState) : TurnState := { st with uiResetDone := true }

/-- `AsyncREPL._cancellation_context` around an arbitrary body (the code
of `_process_input` between entering and leaving the `async with`): set
up a fresh cancel future and start the listener; run the body, which
returns the state it produced and the exception it raised, if any;
`except KeyboardInterrupt` resolves the slot if not done, `except
Exception` only logs; the `finally` clause clears the image buffer, stops
the listener, and resets the UI. -/
def cancellation_context_run (st0 : TurnState)
    (body : TurnState → TurnState × Option PyExn) : TurnState :=
  let stStart : TurnState :=
    { st0 with listenerRunning := true, cancelSlotDone := false, uiResetDone := false }
  let r := body stStart
  let stCaught :=
    match r.2 with
    | none => r.1
    | some .keyboardInterrupt =>
      if r.1.cancelSlotDone then r.1 else { r.1 with cancelSlotDone := true }
    | some _ => r.1
  reset_ui (cleanup_cancel_context { stCaught with imageBuffer := [] })

/-- C4: on every exit path of a content-processing turn — backend
success, backend failure, user cancel (body completes normally), internal
fault or interrupt (body raises) — teardown runs unconditionally: the
cancel listener is stopped, the attachment buffer is cleared, and the
input surface's rendering state is reset. -/
theorem cancellation_context_teardown (st0 : TurnState)
    (body : TurnState → TurnState × Option PyExn) :
    (cancellation_context_run st0 body).imageBuffer = []
  ∧ (cancellation_context_run st0 body).listenerRunning = false
  ∧ (cancellation_context_run st0 body).uiResetDone = true :=
  ⟨rfl, rfl, rfl⟩
